import Mathlib

/-!
Verification of the dev-container orchestrator (src/index.js): a shallow
embedding of its HTTP handlers (edit, single-file read, load-project,
finish) together with the relevant environment semantics (JS string
operations, POSIX shell single-quoting, POSIX `echo`, lexical path
resolution, `find` directory exclusion), and proofs of the specified
properties.
-/

/-- JS string concatenation on the character-list model of strings. -/
def strCat (a b : String) : String := ⟨a.data ++ b.data⟩

/-- JS `String.prototype.startsWith`: code-unit prefix test. -/
def jsStartsWith (s p : String) : Bool := p.data.isPrefixOf s.data

/-- Substring search on character lists (used to model JS `includes` and glob containment). -/
def containsL (sub : List Char) : List Char → Bool
  | [] => sub.isPrefixOf []
  | c :: rest => sub.isPrefixOf (c :: rest) || containsL sub rest

/-- JS `String.prototype.includes`. -/
def containsSub (s sub : String) : Bool := containsL sub.data s.data

/-- JS falsiness of an optional string body field: absent (`undefined`) or the empty string. -/
def jsFalsy : Option String → Bool
  | none => true
  | some s => s == ""

/-- Split a character list into path segments at `/` (POSIX component split). -/
def splitSegs : List Char → List (List Char)
  | [] => [[]]
  | c :: rest =>
    if c = '/' then [] :: splitSegs rest
    else
      match splitSegs rest with
      | [] => [[c]]
      | seg :: segs => (c :: seg) :: segs

/-- POSIX lexical resolution of an absolute path's segment list: empty and `.`
segments vanish, `..` pops the last kept segment (at the root it stays put). -/
def resolveStack (acc : List (List Char)) : List (List Char) → List (List Char)
  | [] => acc
  | s :: rest =>
    if s = [] ∨ s = ['.'] then resolveStack acc rest
    else if s = ['.', '.'] then resolveStack acc.dropLast rest
    else resolveStack (acc ++ [s]) rest

/-- The resolved segment sequence of an absolute path: two paths denote the
same container file exactly when their resolved segments coincide. -/
def resolvedSegs (p : String) : List (List Char) := resolveStack [] (splitSegs p.data)

/-- POSIX lexical resolution of an absolute path (collapses `//`, `.`, `..`). -/
def resolvePath (p : String) : String := ⟨'/' :: List.intercalate ['/'] (resolvedSegs p)⟩

/-- Node `path.dirname` (POSIX flavour). -/
def dirname (p : String) : String :=
  match (splitSegs p.data).dropLast with
  | [] => "."
  | [[]] => "/"
  | segs => ⟨List.intercalate ['/'] segs⟩

/-- Node `path.basename` (POSIX flavour). -/
def basename (p : String) : String := ⟨(splitSegs p.data).getLastD []⟩

/-- First-occurrence replacement on character lists. -/
def replaceFirstL (pat repl : List Char) : List Char → List Char
  | [] => []
  | c :: rest =>
    if pat.isPrefixOf (c :: rest) then repl ++ (c :: rest).drop pat.length
    else c :: replaceFirstL pat repl rest

/-- JS `String.prototype.replace` with a plain nonempty search string: replaces
the first occurrence only. -/
def replaceFirst (s pat repl : String) : String := ⟨replaceFirstL pat.data repl.data s.data⟩

/-- ASCII whitespace recognised by the trim model. -/
def isWsChar (c : Char) : Bool := c == ' ' || c == '\n' || c == '\t' || c == '\r'

/-- JS `String.prototype.trim` restricted to common whitespace. -/
def jsTrim (s : String) : String :=
  ⟨((s.data.dropWhile isWsChar).reverse.dropWhile isWsChar).reverse⟩

/-- The container filesystem, as resolved absolute path ↦ text content
(most recent write first). -/
def fsGet : List (String × String) → String → Option String
  | [], _ => none
  | (k, v) :: rest, key => if k = key then some v else fsGet rest key

inductive ContainerCmd where
  | mkdirChown (dir : String)
  | writeMove (target : String) (content : String)
  | catFile (p : String)
  | dockerCp (src : String)
  deriving DecidableEq

inductive DockerCall where
  | stop (id : String)
  | remove (id : String)
  deriving DecidableEq

structure HttpResponse where
  status : Nat
  success : Bool := false
  error : Option String := none
  details : Option String := none
  message : Option String := none
  backupPath : Option String := none
  content : Option String := none
  filePath : Option String := none
  contentLength : Option Nat := none
  deriving DecidableEq

/-- Path normalization of the edit endpoint (src/index.js lines 130-132): keep
a path already prefixed by `/app/`, otherwise strip one leading slash and
prepend `/app/`. -/
def normalizedPath (filePath : String) : String :=
  if jsStartsWith filePath "/app/" then filePath
  else strCat "/app/" (if jsStartsWith filePath "/" then ⟨filePath.data.drop 1⟩ else filePath)

/-- The container-side source path of the single-file read endpoint
(src/index.js line 423): `/app/` prepended unconditionally, no normalization. -/
def fileSourcePath (filePath : String) : String := strCat "/app/" filePath

/-- The edit endpoint (src/index.js lines 116-218) with container exec results
injected: `writeErrOutput` is the collected output of the write command (only
logged, never acted on, lines 167-179) and `verifyContent` the collected
output of the verification `cat` (lines 181-198). Returns the HTTP response
and the container commands issued, in order. -/
def editHandler (filePath content : Option String) (writeErrOutput verifyContent : String) :
    HttpResponse × List ContainerCmd :=
  if jsFalsy filePath || jsFalsy content then
    ({ status := 400, error := some "filePath and content are required" }, [])
  else
    let np := normalizedPath (filePath.getD "")
    let cmds := [ContainerCmd.mkdirChown (dirname np),
                 ContainerCmd.writeMove np (content.getD ""),
                 ContainerCmd.catFile np]
    if verifyContent = "" then
      ({ status := 500, error := some "Failed to modify file in container",
         details := some "File appears to be empty after writing" }, cmds)
    else
      ({ status := 200, success := true, message := some "File updated in container",
         filePath := some np, contentLength := some verifyContent.length }, cmds)

/-- The single-file read endpoint (src/index.js lines 405-447): validation,
`docker cp` from the unconditionally prefixed source path, host read. `cpErr`
is the environment's diagnostic when the copy fails (source file absent). -/
def fileHandler (filePath : Option String) (cfs : List (String × String)) (cpErr : String) :
    HttpResponse × List ContainerCmd :=
  if jsFalsy filePath then
    ({ status := 400, error := some "filePath is required" }, [])
  else
    let src := fileSourcePath (filePath.getD "")
    match fsGet cfs (resolvePath src) with
    | none =>
      ({ status := 500, error := some "Failed to get file from container", details := some cpErr },
       [ContainerCmd.dockerCp src])
    | some c =>
      ({ status := 200, success := true, content := some c }, [ContainerCmd.dockerCp src])

/-- Whether `require("fs").promises` provides a `createWriteStream` member: it
does not — `createWriteStream` belongs to the callback `fs` API, so the call
`fsPromises.createWriteStream("./backup.zip")` on src/index.js line 71 throws
a TypeError before the archive or any docker call is reached. -/
def fsPromisesHasCreateWriteStream : Bool := false

/-- The finish endpoint (src/index.js lines 62-114) as it executes: after
validation, the first statement of the try block throws (see
`fsPromisesHasCreateWriteStream`), so the catch on line 107 answers 500 and
no docker call is ever issued. The archive event handlers it would have
installed are modelled by `finishCallbacks`. -/
def finishHandler (containerId : Option String) : HttpResponse × List DockerCall :=
  if jsFalsy containerId then
    ({ status := 400, error := some "Container ID is required" }, [])
  else
    ({ status := 500, error := some "Operation failed",
       details := some "fsPromises.createWriteStream is not a function" }, [])

inductive ArchiveOutcome where
  | closed
  | errored (msg : String)
  deriving DecidableEq

inductive StepResult where
  | ok
  | err (msg : String)
  deriving DecidableEq

/-- The archive event handlers of the finish endpoint (src/index.js lines
76-106), as they would run once the archive settles: on archive error respond
500 with no docker call; on close stop the container, and only if the stop
succeeded remove it. Returns the response and the docker calls issued, in
order. -/
def finishCallbacks (containerId : String) (arch : ArchiveOutcome) (stopRes removeRes : StepResult) :
    HttpResponse × List DockerCall :=
  match arch with
  | ArchiveOutcome.errored m =>
    ({ status := 500, error := some "Backup failed", details := some m }, [])
  | ArchiveOutcome.closed =>
    match stopRes with
    | StepResult.err m =>
      ({ status := 500, error := some "Failed to stop container", details := some m },
       [DockerCall.stop containerId])
    | StepResult.ok =>
      match removeRes with
      | StepResult.err m =>
        ({ status := 500, error := some "Failed to stop container", details := some m },
         [DockerCall.stop containerId, DockerCall.remove containerId])
      | StepResult.ok =>
        ({ status := 200, success := true, message := some "Container stopped and backup created",
           backupPath := some "./backup.zip" },
         [DockerCall.stop containerId, DockerCall.remove containerId])

/-- `find`'s pruning of a directory `d` via the glob `*/d/*` (src/index.js
lines 230-234): for a fixed slash-free directory name this is containment of
the substring `/d/`. -/
def findExcludesDir (p d : String) : Bool := containsSub p (strCat "/" (strCat d "/"))

/-- The combined exclusion filter of the load-project listing. -/
def excludedByFind (p : String) : Bool :=
  findExcludesDir p "node_modules" || findExcludesDir p ".git" ||
    findExcludesDir p "dist" || findExcludesDir p ".cache"

/-- One file of the load-project fetch loop (src/index.js lines 274-304): skip
instrumentation files, drop failed reads, record only contents whose trim is
nonempty. `r` is the copy-and-read outcome for the file. -/
def entryFor (r : String → Option String) (file : String) : Option (String × String) :=
  if containsSub file "inspection-handler" then none
  else
    match r file with
    | none => none
    | some content => if jsTrim content == "" then none else some (file, content)

/-- The load-project result map (src/index.js lines 220-324): the container's
regular files filtered by `find`'s exclusions, stripped of the leading `./`,
then fetched file by file. The chunking (size 10, fixed pause) only affects
fetch ordering, not which entries accumulate. -/
def loadProjectFiles (fs : List String) (r : String → Option String) : List (String × String) :=
  ((fs.filter (fun p => !excludedByFind p)).map (fun f => replaceFirst f "./" "")).filterMap
    (entryFor r)

/-- A relative path lying under a directory `d`. -/
def underDir (k d : String) : Bool :=
  jsStartsWith k (strCat d "/") || containsSub k (strCat "/" (strCat d "/"))

/-- Host-side `rm -rf dir`: every path at or under `dir` disappears. -/
def rmRf (hfs : List String) (dir : String) : List String :=
  hfs.filter (fun p => !jsStartsWith p dir)

structure FileRouteOracle where
  mkdirFails : Bool
  cpFails : Bool
  readFails : Bool

/-- Host temp-artifact effects of the single-file read endpoint (src/index.js
lines 414-439), with a failure oracle for each fallible stage: the inner catch
runs `rm -rf tempDir` on every failure path (line 437) and the success path
runs it before responding (line 429). Returns the HTTP status and the host
filesystem. -/
def fileRouteFs (hfs : List String) (tempDir base : String) (o : FileRouteOracle) :
    Nat × List String :=
  if o.mkdirFails then (500, rmRf hfs tempDir)
  else
    let h1 := hfs ++ [tempDir]
    if o.cpFails then (500, rmRf h1 tempDir)
    else
      let h2 := h1 ++ [strCat tempDir (strCat "/" base)]
      if o.readFails then (500, rmRf h2 tempDir)
      else (200, rmRf h2 tempDir)

/-- Host temp effects of one load-project fetch (src/index.js lines 279-303):
create the session temp dir, copy the file into it, read it, remove the
per-file artifact; a copy or read failure is caught per file, leaving the
artifact (if any) for the final sweep. -/
def loadFetchFs (tempDir : String) (cpFails readFails : String → Bool) (h : List String)
    (f : String) : List String :=
  let h1 := h ++ [tempDir]
  if cpFails f then h1
  else
    let tf := strCat tempDir (strCat "/" (basename f))
    let h2 := h1 ++ [tf]
    if readFails f then h2 else h2.filter (fun p => p != tf)

/-- Host temp effects of the whole load-project endpoint: if the initial find
exec fails, no temp dir was created (the outer catch answers 500); otherwise
the per-file loop runs (per-file failures caught, line 301) and the final
`rm -rf` of the session temp dir (line 314) precedes the response. -/
def loadProjectFs (hfs : List String) (tempDir : String) (findFails : Bool) (files : List String)
    (cpFails readFails : String → Bool) : Nat × List String :=
  if findFails then (500, hfs)
  else (200, rmRf (files.foldl (loadFetchFs tempDir cpFails readFails) hfs) tempDir)

/-! ### Toolkit lemmas -/

theorem isPrefixOf_iff_exists : ∀ (l t : List Char), l.isPrefixOf t = true ↔ ∃ r, t = l ++ r
  | [], t => by simp [List.isPrefixOf]
  | a :: as, [] => by simp [List.isPrefixOf]
  | a :: as, b :: bs => by
    simp only [List.isPrefixOf, Bool.and_eq_true, beq_iff_eq,
      isPrefixOf_iff_exists as bs, List.cons_append, List.cons.injEq]
    constructor
    · rintro ⟨rfl, r, rfl⟩
      exact ⟨r, rfl, rfl⟩
    · rintro ⟨r, rfl, rfl⟩
      exact ⟨rfl, r, rfl⟩

theorem isPrefixOf_append_self (l t : List Char) : l.isPrefixOf (l ++ t) = true :=
  (isPrefixOf_iff_exists l (l ++ t)).mpr ⟨t, rfl⟩

theorem containsL_iff : ∀ (sub l : List Char),
    containsL sub l = true ↔ ∃ a b, l = a ++ (sub ++ b)
  | sub, [] => by
    simp only [containsL, isPrefixOf_iff_exists]
    constructor
    · rintro ⟨r, hr⟩
      exact ⟨[], r, by simpa using hr⟩
    · rintro ⟨a, b, h⟩
      rcases List.append_eq_nil.mp h.symm with ⟨rfl, h2⟩
      exact ⟨b, by simpa using h2.symm⟩
  | sub, c :: rest => by
    simp only [containsL, Bool.or_eq_true, isPrefixOf_iff_exists, containsL_iff sub rest]
    constructor
    · rintro (⟨r, hr⟩ | ⟨a, b, hab⟩)
      · exact ⟨[], r, by simpa using hr⟩
      · exact ⟨c :: a, b, by simp [hab]⟩
    · rintro ⟨a, b, hab⟩
      cases a with
      | nil => exact Or.inl ⟨b, by simpa using hab⟩
      | cons a0 as =>
        have h2 := hab
        simp only [List.cons_append, List.cons.injEq] at h2
        exact Or.inr ⟨as, b, h2.2⟩

theorem containsL_of_append (sub a b : List Char) :
    containsL sub (a ++ (sub ++ b)) = true :=
  (containsL_iff sub _).mpr ⟨a, b, rfl⟩

theorem splitSegs_sep (l : List Char) : splitSegs ('/' :: l) = [] :: splitSegs l := by
  simp [splitSegs]

theorem splitSegs_char (c : Char) (hc : c ≠ '/') (l : List Char) (seg : List Char)
    (segs : List (List Char)) (h : splitSegs l = seg :: segs) :
    splitSegs (c :: l) = (c :: seg) :: segs := by
  simp [splitSegs, hc, h]

/-- Splitting after the fixed prefix `/app/`. -/
theorem splitSegs_app (x : List Char) :
    splitSegs ('/' :: 'a' :: 'p' :: 'p' :: '/' :: x) = [] :: ['a', 'p', 'p'] :: splitSegs x := by
  have h1 : splitSegs ('/' :: x) = [] :: splitSegs x := splitSegs_sep x
  have h2 : splitSegs ('p' :: '/' :: x) = ['p'] :: splitSegs x :=
    splitSegs_char 'p' (by decide) _ _ _ h1
  have h3 : splitSegs ('p' :: 'p' :: '/' :: x) = ['p', 'p'] :: splitSegs x :=
    splitSegs_char 'p' (by decide) _ _ _ h2
  have h4 : splitSegs ('a' :: 'p' :: 'p' :: '/' :: x) = ['a', 'p', 'p'] :: splitSegs x :=
    splitSegs_char 'a' (by decide) _ _ _ h3
  rw [splitSegs_sep, h4]

theorem mem_rmRf (hfs : List String) (dir p : String) (h : p ∈ rmRf hfs dir) :
    jsStartsWith p dir = false := by
  rcases List.mem_filter.mp h with ⟨-, h2⟩
  simpa using h2

/-- Without `..` segments, resolution just drops empty and dot segments. -/
theorem resolveStack_no_dotdot : ∀ (segs : List (List Char)) (acc : List (List Char)),
    (∀ s ∈ segs, s ≠ ['.', '.']) →
    resolveStack acc segs = acc ++ segs.filter (fun s => !(s = [] ∨ s = ['.'] : Bool))
  | [], acc, _ => by simp [resolveStack]
  | s :: rest, acc, h => by
    have hs : s ≠ ['.', '.'] := h s (by simp)
    have hrest : ∀ t ∈ rest, t ≠ ['.', '.'] := fun t ht => h t (by simp [ht])
    by_cases hd : s = [] ∨ s = ['.']
    · simp only [resolveStack, if_pos hd, resolveStack_no_dotdot rest acc hrest,
        List.filter_cons]
      simp [hd]
    · simp only [resolveStack, if_neg hd, if_neg hs,
        resolveStack_no_dotdot rest (acc ++ [s]) hrest, List.filter_cons]
      simp [hd]

/-! ### C7, C4, C5, C3, C2 -/

/-- C7: the edit operation called with path "src/x.txt" and the edit operation
called with path "/app/src/x.txt" normalize to the identical in-container
target path, so both writes target the same file. -/
theorem c7_normalization_identical :
    normalizedPath "src/x.txt" = "/app/src/x.txt" ∧
    normalizedPath "/app/src/x.txt" = "/app/src/x.txt" := by decide

/-- C4 (amended): the path used by the edit operation after normalization
always carries the workspace root "/app/" as a literal prefix; however, a
caller-supplied filePath containing ".." segments resolves outside that root
(see the counterexample), so normalization alone does not confine edits to
the workspace. -/
theorem c4_normalized_has_root_marker (p : String) :
    jsStartsWith (normalizedPath p) "/app/" = true := by
  unfold normalizedPath
  split
  · assumption
  · simp only [jsStartsWith, strCat]
    exact isPrefixOf_append_self _ _

/-- C4 counterexample: for the caller-supplied filePath "../../etc/passwd"
the normalized edit target resolves to "/etc/passwd", which lies outside the
workspace root /app — refuting the claim that no edit operation ever targets
a path outside that root. -/
theorem c4_counterexample :
    ¬(jsStartsWith (resolvePath (normalizedPath "../../etc/passwd")) "/app/" = true ∨
      resolvePath (normalizedPath "../../etc/passwd") = "/app") := by decide

/-- C5: for every validated edit request, the handler answers 500 (with the
empty-write diagnostic) exactly when the verification read-back is empty —
regardless of the write command's collected error output, which is only
logged — and answers 200 with the success flag otherwise. -/
theorem c5_empty_write_detection (fp c : Option String) (w v : String)
    (hfp : jsFalsy fp = false) (hc : jsFalsy c = false) :
    ((editHandler fp c w v).1.status = 500 ↔ v = "") ∧
    (v = "" → (editHandler fp c w v).1.details =
      some "File appears to be empty after writing") ∧
    (v ≠ "" → (editHandler fp c w v).1.status = 200 ∧
      (editHandler fp c w v).1.success = true) := by
  by_cases hv : v = "" <;> simp [editHandler, hfp, hc, hv]

/-- C5 witness: a concrete validated request with an empty read-back is
reported as a 500 write-verification failure. -/
theorem c5_empty_write_detection_witness :
    (((editHandler (some "src/a.txt") (some "hello") "" "").1.status = 500 ↔ ("" : String) = "") ∧
     (("" : String) = "" → (editHandler (some "src/a.txt") (some "hello") "" "").1.details =
       some "File appears to be empty after writing") ∧
     (("" : String) ≠ "" → (editHandler (some "src/a.txt") (some "hello") "" "").1.status = 200 ∧
       (editHandler (some "src/a.txt") (some "hello") "" "").1.success = true)) :=
  c5_empty_write_detection (some "src/a.txt") (some "hello") "" "" (by decide) (by decide)

/-- C3: in the finish endpoint's archive callbacks, a container-remove call is
issued only after the stop call completed without error (and then the trace is
exactly stop followed by remove), and if the archive errors, no stop or remove
call is issued at all. (As shipped, finish fails even earlier — see C2 — so
every actual execution issues no docker call, satisfying the claim a fortiori.) -/
theorem c3_finish_teardown_order (id : String) (arch : ArchiveOutcome) (s r : StepResult) :
    (DockerCall.remove id ∈ (finishCallbacks id arch s r).2 →
      s = StepResult.ok ∧
      (finishCallbacks id arch s r).2 = [DockerCall.stop id, DockerCall.remove id]) ∧
    (∀ m, arch = ArchiveOutcome.errored m → (finishCallbacks id arch s r).2 = []) := by
  cases arch <;> cases s <;> cases r <;> simp [finishCallbacks]

/-- C3 witness: on a concrete archive error, the docker-call trace is empty. -/
theorem c3_finish_teardown_order_witness :
    (finishCallbacks "dev-1" (ArchiveOutcome.errored "disk full") StepResult.ok StepResult.ok).2 =
      [] :=
  (c3_finish_teardown_order "dev-1" (ArchiveOutcome.errored "disk full")
    StepResult.ok StepResult.ok).2 "disk full" rfl

/-- C2: the finish operation called with an existing container id does not
succeed: `fs.promises` has no `createWriteStream`, so line 71 throws a
TypeError and the handler answers 500 "Operation failed" with no success
flag, no message, no backupPath, and no docker call — contradicting the
documented `{success, message, backupPath}` contract. -/
theorem c2_finish_always_fails :
    (finishHandler (some "dev-1700000000000")).1.status = 500 ∧
    (finishHandler (some "dev-1700000000000")).1.success = false ∧
    (finishHandler (some "dev-1700000000000")).1.backupPath = none ∧
    (finishHandler (some "dev-1700000000000")).1.message = none ∧
    (finishHandler (some "dev-1700000000000")).1.error = some "Operation failed" ∧
    (finishHandler (some "dev-1700000000000")).2 = [] := by decide

/-! ### C9 -/

/-- C9 counterexample: an edit request with both fields present (content is
the empty string) is nevertheless rejected with 400 — so rejection is not
"exactly when a required body field is missing" — and the finish validation
failure response carries no details field, so not every failure response
carries a details diagnostic. -/
theorem c9_counterexample :
    ¬(((editHandler (some "src/a.txt") (some "") "" "x").1.status = 400) ↔
        ((some "src/a.txt" : Option String) = none ∨ (some "" : Option String) = none)) ∧
    (finishHandler none).1.status = 400 ∧ (finishHandler none).1.details = none := by decide

/-- C9 (amended): for the edit, single-file read and finish operations a
request is rejected with HTTP 400 exactly when a required body field is
missing or empty (JS-falsy); in that case no container interaction has
occurred and the response carries only the top-level error summary, with no
details field; non-validation failures answer 500 carrying the error summary
plus a details diagnostic. -/
theorem c9_validation_amended (fp c cid : Option String) (w v em : String)
    (cfs : List (String × String)) :
    ((editHandler fp c w v).1.status = 400 ↔ (jsFalsy fp || jsFalsy c) = true) ∧
    ((jsFalsy fp || jsFalsy c) = true →
      (editHandler fp c w v).2 = [] ∧ (editHandler fp c w v).1.details = none ∧
      (editHandler fp c w v).1.error = some "filePath and content are required") ∧
    ((editHandler fp c w v).1.status = 500 → (editHandler fp c w v).1.details.isSome = true) ∧
    ((fileHandler fp cfs em).1.status = 400 ↔ jsFalsy fp = true) ∧
    (jsFalsy fp = true → (fileHandler fp cfs em).2 = [] ∧
      (fileHandler fp cfs em).1.details = none ∧
      (fileHandler fp cfs em).1.error = some "filePath is required") ∧
    ((fileHandler fp cfs em).1.status = 500 → (fileHandler fp cfs em).1.details.isSome = true) ∧
    ((finishHandler cid).1.status = 400 ↔ jsFalsy cid = true) ∧
    (jsFalsy cid = true → (finishHandler cid).2 = [] ∧ (finishHandler cid).1.details = none ∧
      (finishHandler cid).1.error = some "Container ID is required") ∧
    ((finishHandler cid).1.status = 500 → (finishHandler cid).1.details.isSome = true) := by
  refine ⟨?_, ?_, ?_, ?_, ?_, ?_, ?_, ?_, ?_⟩
  · by_cases h : (jsFalsy fp || jsFalsy c) = true
    · simp [editHandler, h]
    · by_cases hv : v = "" <;> simp [editHandler, h, hv]
  · intro h
    simp [editHandler, h]
  · intro h
    by_cases hb : (jsFalsy fp || jsFalsy c) = true
    · simp [editHandler, hb] at h
    · by_cases hv : v = "" <;> simp [editHandler, hb, hv] at h ⊢
  · by_cases h : jsFalsy fp = true
    · simp [fileHandler, h]
    · cases hg : fsGet cfs (resolvePath (fileSourcePath (fp.getD ""))) <;>
        simp [fileHandler, h, hg]
  · intro h
    simp [fileHandler, h]
  · intro h
    by_cases hb : jsFalsy fp = true
    · simp [fileHandler, hb] at h
    · cases hg : fsGet cfs (resolvePath (fileSourcePath (fp.getD ""))) <;>
        simp [fileHandler, hb, hg] at h ⊢
  · by_cases h : jsFalsy cid = true <;> simp [finishHandler, h]
  · intro h
    simp [finishHandler, h]
  · intro h
    by_cases hb : jsFalsy cid = true <;> simp [finishHandler, hb] at h ⊢

/-- C9 witness: a concrete fully-missing edit request is rejected with 400,
no container command is issued, and the response has no details field. -/
theorem c9_validation_amended_witness :
    (editHandler none none "" "").2 = [] ∧ (editHandler none none "" "").1.details = none ∧
    (editHandler none none "" "").1.error = some "filePath and content are required" :=
  (c9_validation_amended none none none "" "" "" []).2.1 (by decide)

/-! ### C1 -/

/-- Resolution after the fixed `/app/` prefix, when the remainder has no `..`
segment: the resolved sequence is `app` followed by the remainder's nonempty,
non-dot segments. -/
theorem resolvedSegs_app_of_no_dotdot (x : List Char)
    (hx : ∀ s ∈ splitSegs x, s ≠ ['.', '.']) :
    resolvedSegs ⟨'/' :: 'a' :: 'p' :: 'p' :: '/' :: x⟩ =
      ['a', 'p', 'p'] :: (splitSegs x).filter (fun s => !(s = [] ∨ s = ['.'] : Bool)) := by
  show resolveStack [] (splitSegs ('/' :: 'a' :: 'p' :: 'p' :: '/' :: x)) = _
  rw [splitSegs_app]
  rw [resolveStack_no_dotdot]
  · simp [List.filter_cons]
  · intro s hs
    simp only [List.mem_cons] at hs
    rcases hs with rfl | rfl | hs
    · simp
    · simp
    · exact hx s hs

/-- C10 counterexample: for the filePath "/app/../../app/app/y" (which begins
with "/app/"), the read endpoint's prefixed source path and the edit
endpoint's normalized target resolve to the same container file — refuting
the claim's universal "refers to a different file" (and its "resolves to
/app/app/...", which also fails at "/app/../x"). -/
theorem c10_counterexample :
    jsStartsWith "/app/../../app/app/y" "/app/" = true ∧
    resolvedSegs (fileSourcePath "/app/../../app/app/y") =
      resolvedSegs (normalizedPath "/app/../../app/app/y") := by decide

/-- C10 (amended): the single-file read's container source path is always the
caller's filePath with "/app/" prepended, with no normalization; and for
every filePath that begins with "/app/" and contains no ".." segment, that
source path resolves under /app/app/ and denotes a different container file
from the one the (normalizing) edit operation targets for the same
caller-supplied filePath. -/
theorem c10_read_path_unnormalized (x : List Char) (p : String)
    (hp : p.data = '/' :: 'a' :: 'p' :: 'p' :: '/' :: x)
    (hx : ∀ s ∈ splitSegs x, s ≠ ['.', '.']) :
    fileSourcePath p = strCat "/app/" p ∧
    (resolvedSegs (fileSourcePath p)).take 2 = [['a', 'p', 'p'], ['a', 'p', 'p']] ∧
    resolvedSegs (fileSourcePath p) ≠ resolvedSegs (normalizedPath p) := by
  have happ : ("/app/" : String).data = ['/', 'a', 'p', 'p', '/'] := by decide
  have hsrc : fileSourcePath p = ⟨'/' :: 'a' :: 'p' :: 'p' :: '/' :: ('/' :: 'a' :: 'p' :: 'p' :: '/' :: x)⟩ := by
    show strCat "/app/" p = _
    simp [strCat, happ, hp]
  have hxin : ∀ s ∈ splitSegs ('/' :: 'a' :: 'p' :: 'p' :: '/' :: x), s ≠ ['.', '.'] := by
    rw [splitSegs_app]
    intro s hs
    simp only [List.mem_cons] at hs
    rcases hs with rfl | rfl | hs
    · simp
    · simp
    · exact hx s hs
  have hsegsrc : resolvedSegs (fileSourcePath p) =
      ['a', 'p', 'p'] :: (splitSegs ('/' :: 'a' :: 'p' :: 'p' :: '/' :: x)).filter
        (fun s => !(s = [] ∨ s = ['.'] : Bool)) := by
    rw [hsrc]
    exact resolvedSegs_app_of_no_dotdot _ hxin
  have hfilter : (splitSegs ('/' :: 'a' :: 'p' :: 'p' :: '/' :: x)).filter
      (fun s => !(s = [] ∨ s = ['.'] : Bool)) =
      ['a', 'p', 'p'] :: (splitSegs x).filter (fun s => !(s = [] ∨ s = ['.'] : Bool)) := by
    rw [splitSegs_app]
    simp [List.filter_cons]
  have hnorm : normalizedPath p = p := by
    have hpre : jsStartsWith p "/app/" = true := by
      simp only [jsStartsWith, happ, hp]
      exact isPrefixOf_append_self ['/', 'a', 'p', 'p', '/'] x
    simp [normalizedPath, hpre]
  have hsegtgt : resolvedSegs (normalizedPath p) =
      ['a', 'p', 'p'] :: (splitSegs x).filter (fun s => !(s = [] ∨ s = ['.'] : Bool)) := by
    rw [hnorm]
    have hpx : p = (⟨'/' :: 'a' :: 'p' :: 'p' :: '/' :: x⟩ : String) := String.ext hp
    rw [hpx]
    exact resolvedSegs_app_of_no_dotdot x hx
  refine ⟨rfl, ?_, ?_⟩
  · rw [hsegsrc, hfilter]
    rfl
  · rw [hsegsrc, hfilter, hsegtgt]
    intro h
    have hlen := congrArg List.length h
    simp at hlen

/-- C10 witness: the amended statement at the concrete filePath "/app/y". -/
theorem c10_read_path_unnormalized_witness :
    fileSourcePath "/app/y" = strCat "/app/" "/app/y" ∧
    (resolvedSegs (fileSourcePath "/app/y")).take 2 = [['a', 'p', 'p'], ['a', 'p', 'p']] ∧
    resolvedSegs (fileSourcePath "/app/y") ≠ resolvedSegs (normalizedPath "/app/y") :=
  c10_read_path_unnormalized ['y'] "/app/y" (by decide) (by decide)

/-! ### C6 -/

theorem entryFor_some_eq (r : String → Option String) (a k c : String)
    (h : entryFor r a = some (k, c)) :
    k = a ∧ containsSub a "inspection-handler" = false := by
  by_cases hm : containsSub a "inspection-handler" = true
  · simp [entryFor, hm] at h
  · cases hr : r a with
    | none => simp [entryFor, hm, hr] at h
    | some content =>
      by_cases ht : jsTrim content = ""
      · simp [entryFor, hm, hr, ht] at h
      · simp [entryFor, hm, hr, ht] at h
        exact ⟨h.1.symm, by simpa using hm⟩

theorem entryFor_none_of_read_fail (r : String → Option String) (a : String)
    (hr : r a = none) : entryFor r a = none := by
  simp [entryFor, hr]

theorem loadProject_skip_failures (fs : List String) (r : String → Option String) :
    loadProjectFiles fs r =
      loadProjectFiles (fs.filter (fun p => (r (replaceFirst p "./" "")).isSome)) r := by
  induction fs with
  | nil => rfl
  | cons p ps ih =>
    simp only [loadProjectFiles, List.filterMap_map, List.filter_filter] at ih ⊢
    simp only [List.filter_cons]
    by_cases hk : excludedByFind p = true
    · simpa [hk] using ih
    · by_cases hr : (r (replaceFirst p "./" "")).isSome = true
      · cases he : entryFor r (replaceFirst p "./" "") with
        | none => simpa [hk, hr, List.filterMap_cons, he] using ih
        | some b => simpa [hk, hr, List.filterMap_cons, he] using ih
      · have hnone : r (replaceFirst p "./" "") = none := by
          cases hq : r (replaceFirst p "./" "") with
          | none => rfl
          | some b => rw [hq] at hr; simp at hr
        simpa [hk, hr, List.filterMap_cons,
          entryFor_none_of_read_fail r _ hnone] using ih

theorem replaceFirst_dotSlash (p : String) (h : jsStartsWith p "./" = true) :
    p.data = '.' :: '/' :: (replaceFirst p "./" "").data := by
  rcases (isPrefixOf_iff_exists _ _).mp h with ⟨r, hr⟩
  have hds : ("./" : String).data = ['.', '/'] := by decide
  have hemp : ("" : String).data = [] := by decide
  have hpd : p.data = '.' :: '/' :: r := by rw [hr, hds]; rfl
  have hrf : (replaceFirst p "./" "").data = r := by
    show replaceFirstL ("./" : String).data ("" : String).data p.data = r
    rw [hpd, hds, hemp]
    simp [replaceFirstL, List.isPrefixOf]
  rw [hrf, hpd]

theorem underDir_excluded (d p k : String)
    (hpd : p.data = '.' :: '/' :: k.data)
    (hex : findExcludesDir p d = false) :
    underDir k d = false := by
  cases hu : underDir k d with
  | false => rfl
  | true =>
    exfalso
    have hsub : (strCat "/" (strCat d "/")).data = '/' :: (d.data ++ ['/']) := rfl
    have hdd : (strCat d "/").data = d.data ++ ['/'] := rfl
    have hu2 : jsStartsWith k (strCat d "/") = true ∨
        containsSub k (strCat "/" (strCat d "/")) = true := by
      have := hu
      simp only [underDir, Bool.or_eq_true] at this
      exact this
    have hcon : containsL ('/' :: (d.data ++ ['/'])) p.data = true := by
      rcases hu2 with hpre | hc
      · rcases (isPrefixOf_iff_exists _ _).mp (by simpa [jsStartsWith, hdd] using hpre)
          with ⟨r, hr⟩
        apply (containsL_iff _ _).mpr
        refine ⟨['.'], r, ?_⟩
        rw [hpd, hr]
        simp
      · rcases (containsL_iff _ _).mp (by simpa [containsSub, hsub] using hc) with ⟨a, b, hab⟩
        apply (containsL_iff _ _).mpr
        refine ⟨'.' :: '/' :: a, b, ?_⟩
        rw [hpd, hab]
        simp
    have hfin : findExcludesDir p d = true := by
      simpa [findExcludesDir, containsSub, hsub] using hcon
    rw [hex] at hfin
    exact Bool.false_ne_true hfin

/-- C6: for every session, the load-project result map never contains a path
under node_modules, .git, dist, or .cache, and never one containing the
instrumentation marker "inspection-handler"; per-file read failures are
skipped without affecting the rest of the enumeration (the result equals the
enumeration over just the readable files). -/
theorem c6_enumeration_exclusions (fs : List String) (r : String → Option String)
    (hfs : ∀ p ∈ fs, jsStartsWith p "./" = true) :
    (∀ k c, (k, c) ∈ loadProjectFiles fs r →
      underDir k "node_modules" = false ∧ underDir k ".git" = false ∧
      underDir k "dist" = false ∧ underDir k ".cache" = false ∧
      containsSub k "inspection-handler" = false) ∧
    loadProjectFiles fs r =
      loadProjectFiles (fs.filter (fun p => (r (replaceFirst p "./" "")).isSome)) r := by
  refine ⟨?_, loadProject_skip_failures fs r⟩
  intro k c hkc
  rcases List.mem_filterMap.mp hkc with ⟨a, ha, hent⟩
  rcases List.mem_map.mp ha with ⟨p, hp, hstrip⟩
  rcases List.mem_filter.mp hp with ⟨hpfs, hkeep⟩
  have hkeep2 : excludedByFind p = false := by simpa using hkeep
  rcases entryFor_some_eq r a k c hent with ⟨hka, hmark⟩
  subst hka
  have hpd : p.data = '.' :: '/' :: k.data := by
    have h2 := replaceFirst_dotSlash p (hfs p hpfs)
    rw [hstrip] at h2
    exact h2
  have hx : findExcludesDir p "node_modules" = false ∧ findExcludesDir p ".git" = false ∧
      findExcludesDir p "dist" = false ∧ findExcludesDir p ".cache" = false := by
    simpa [excludedByFind, Bool.or_eq_false_iff, and_assoc] using hkeep2
  exact ⟨underDir_excluded _ p k hpd hx.1, underDir_excluded _ p k hpd hx.2.1,
    underDir_excluded _ p k hpd hx.2.2.1, underDir_excluded _ p k hpd hx.2.2.2, hmark⟩

/-- C6 witness: a concrete enumeration containing a project file and an
excluded node_modules file — the surviving key satisfies every exclusion. -/
theorem c6_enumeration_exclusions_witness :
    underDir "src/a.tsx" "node_modules" = false ∧ underDir "src/a.tsx" ".git" = false ∧
    underDir "src/a.tsx" "dist" = false ∧ underDir "src/a.tsx" ".cache" = false ∧
    containsSub "src/a.tsx" "inspection-handler" = false :=
  (c6_enumeration_exclusions ["./src/a.tsx", "./node_modules/lib/x.js"]
    (fun _ => some "body") (by decide)).1 "src/a.tsx" "body" (by decide)

/-! ### C8 -/

/-- C8: after a single-file read and after a full-tree enumeration — whether
they succeed or fail at temp-directory creation, container copy, or host read
— no path under the operation's host temp directory remains on the host
filesystem: every exit path of the read endpoint runs `rm -rf` on its temp
dir, and load-project either never creates its temp dir (find failure) or
sweeps it with the final `rm -rf` before responding. -/
theorem c8_temp_cleanup (hfs : List String) (tempDir base : String) (o : FileRouteOracle)
    (findFails : Bool) (files : List String) (cpFails readFails : String → Bool)
    (hclean : ∀ p ∈ hfs, jsStartsWith p tempDir = false) :
    (∀ p ∈ (fileRouteFs hfs tempDir base o).2, jsStartsWith p tempDir = false) ∧
    (∀ p ∈ (loadProjectFs hfs tempDir findFails files cpFails readFails).2,
      jsStartsWith p tempDir = false) := by
  constructor
  · intro p hp
    unfold fileRouteFs at hp
    by_cases h1 : o.mkdirFails = true
    · simp only [h1, if_true] at hp
      exact mem_rmRf _ _ _ hp
    · simp only [h1] at hp
      by_cases h2 : o.cpFails = true
      · simp only [h2, if_true] at hp
        exact mem_rmRf _ _ _ hp
      · simp only [h2] at hp
        by_cases h3 : o.readFails = true <;> simp only [h3] at hp <;> simp at hp <;>
          exact mem_rmRf _ _ _ (by simpa using hp)
  · intro p hp
    unfold loadProjectFs at hp
    by_cases hf : findFails = true
    · simp only [hf, if_true] at hp
      exact hclean p hp
    · simp only [hf] at hp
      simp at hp
      exact mem_rmRf _ _ _ (by simpa using hp)

/-- C8 witness: the invariant at a concrete clean host filesystem, temp
directory, and failure-free oracles. -/
theorem c8_temp_cleanup_witness :
    (∀ p ∈ (fileRouteFs ["/home/user/keep.txt"] "/tmp/dev-container-dev-1-5" "a.txt"
        ⟨false, false, false⟩).2, jsStartsWith p "/tmp/dev-container-dev-1-5" = false) ∧
    (∀ p ∈ (loadProjectFs ["/home/user/keep.txt"] "/tmp/dev-container-dev-1-5" false
        ["./a.txt"] (fun _ => false) (fun _ => false)).2,
      jsStartsWith p "/tmp/dev-container-dev-1-5" = false) :=
  c8_temp_cleanup ["/home/user/keep.txt"] "/tmp/dev-container-dev-1-5" "a.txt"
    ⟨false, false, false⟩ false ["./a.txt"] (fun _ => false) (fun _ => false) (by decide)
